import Mathlib

/-!
Verification of the `dateGenerator` repository (packages `chronogen` and
`date_generator`): a shallow embedding in Lean 4 of the format-spec parser,
configuration normalization, date iteration and rendering, together with
theorems checking the natural-language specification against the code.

Python strings are modelled as `List Char`; Python `int` as `Int`; functions
that can raise are modelled with `Except PyErr`.
-/

/-- Model of a Python string: a list of characters. -/
abbrev PyStr := List Char

deriving instance DecidableEq for Except

/-- The Python exceptions relevant to this code base.
`dateGeneratorError` models `DateGeneratorError` (a `ValueError` subclass
declared in `core.py`); `indexError` models an uncaught `IndexError`;
`valueError` models a plain `ValueError` (e.g. from `datetime.date`);
`keyError` models an uncaught `KeyError` from a dict lookup. -/
inductive PyErr where
  | dateGeneratorError (msg : PyStr)
  | indexError
  | valueError (msg : PyStr)
  | keyError (key : PyStr)
deriving DecidableEq

/-- The format tokens produced by `parse_format_spec`
(`'Y4'`, `'Y2'`, `'M'`, `'D'` in the source). -/
inductive FieldToken where
  | Y4
  | Y2
  | M
  | D
deriving DecidableEq

/-- Model of Python `str.upper` (ASCII-relevant part of `str.upper`). -/
def pyUpper (s : PyStr) : PyStr := s.map Char.toUpper

/-- Model of Python `str.lower` (ASCII-relevant part of `str.lower`). -/
def pyLower (s : PyStr) : PyStr := s.map Char.toLower

/-- Model of Python `str.strip` with no argument: remove leading and
trailing whitespace. -/
def pyStrip (s : PyStr) : PyStr :=
  ((s.dropWhile Char.isWhitespace).reverse.dropWhile Char.isWhitespace).reverse

/-- The contiguous-run scan of `parse_format_spec` (`core.py` lines 54-65):
given the current character, its run count so far and the remaining input,
produce the list of `(letter, run_length)` groups. -/
def scanGroups (current : Char) (count : Nat) : List Char → List (Char × Nat)
  | [] => [(current, count)]
  | c :: rest =>
    if c = current then scanGroups current (count + 1) rest
    else (current, count) :: scanGroups c 1 rest

/-- The token-building loop of `parse_format_spec` (`core.py` lines 67-84):
walk the groups, rejecting a letter seen twice and run lengths other than
2/4 for `Y` and 2 for `M` and `D`. A letter other than Y/M/D falls through
the `if`/`elif` chain contributing no token (unreachable after the
invalid-character check). -/
def buildTokens (seen : List Char) : List (Char × Nat) → Except PyErr (List FieldToken)
  | [] => .ok []
  | (letter, length) :: rest =>
    if letter ∈ seen then
      .error (.dateGeneratorError (letter :: " appears multiple times; combine into a single group".toList))
    else if letter = 'Y' then
      if length = 4 then (buildTokens (letter :: seen) rest).map (FieldToken.Y4 :: ·)
      else if length = 2 then (buildTokens (letter :: seen) rest).map (FieldToken.Y2 :: ·)
      else .error (.dateGeneratorError "Y groups must be either 'YY' or 'YYYY'".toList)
    else if letter = 'M' then
      if length = 2 then (buildTokens (letter :: seen) rest).map (FieldToken.M :: ·)
      else .error (.dateGeneratorError "M groups must be exactly 'MM'".toList)
    else if letter = 'D' then
      if length = 2 then (buildTokens (letter :: seen) rest).map (FieldToken.D :: ·)
      else .error (.dateGeneratorError "D groups must be exactly 'DD'".toList)
    else
      buildTokens (letter :: seen) rest

/-- Model of `parse_format_spec` (`chronogen/core.py` lines 33-88).
Note the order of operations in the source: the emptiness test is on the raw
`spec`, the invalid-character test is on the uppercased-and-stripped text,
and the run scan starts from `text[0]` — which raises `IndexError` when the
stripped text is empty although the raw spec is not. -/
def parse_format_spec (spec : PyStr) : Except PyErr (List FieldToken) :=
  if spec = [] then .error (.dateGeneratorError "format string must not be empty".toList)
  else
    let text := pyStrip (pyUpper spec)
    if text.filter (fun c => ¬ (c = 'Y' ∨ c = 'M' ∨ c = 'D')) ≠ [] then
      .error (.dateGeneratorError "format may only contain Y, M, and D characters".toList)
    else
      match text with
      | [] => .error .indexError
      | c :: rest =>
        match buildTokens [] (scanGroups c 1 rest) with
        | .error e => .error e
        | .ok tokens =>
          if tokens = [] then
            .error (.dateGeneratorError "format must include at least one component (Y, M, or D)".toList)
          else .ok tokens

example : parse_format_spec "YYYYMMDD".toList = .ok [.Y4, .M, .D] := by decide

example : parse_format_spec "DDMMYYYY".toList = .ok [.D, .M, .Y4] := by decide

example : parse_format_spec "MMDD".toList = .ok [.M, .D] := by decide

example : parse_format_spec "  ".toList = .error .indexError := by decide

example : parse_format_spec "YMDY".toList =
    .error (.dateGeneratorError "Y groups must be either 'YY' or 'YYYY'".toList) := by
  decide

example : parse_format_spec "YYMDYY".toList =
    .error (.dateGeneratorError "M groups must be exactly 'MM'".toList) := by
  decide

/-- Configuration for the `chronogen` generator
(`chronogen/core.py` lines 91-105). `prefix` is a Lean keyword, so the
`prefix`/`suffix` fields are named `prefixStr`/`suffixStr`; `case` is kept
as `caseOpt`. -/
structure DateGeneratorConfig where
  start_year : Int
  end_year : Int
  format : PyStr
  separator : PyStr
  custom_pattern : Option PyStr
  months : Option (List Int)
  days : Option (List Int)
  prefixStr : PyStr
  suffixStr : PyStr
  caseOpt : Option PyStr
  reverse : Bool
deriving DecidableEq

/-- Python truthiness of an optional string: `None` and `""` are falsy. -/
def truthyStr : Option PyStr → Bool
  | none => false
  | some s => s ≠ []

/-- The error message `f"{field} must be between {minimum} and {maximum}"`
of `_normalize_int_sequence` (`core.py` line 155). -/
def rangeMsg (field : PyStr) (minimum maximum : Int) : PyStr :=
  field ++ " must be between ".toList ++ (toString minimum).toList ++
    " and ".toList ++ (toString maximum).toList

/-- The validation loop inside `_normalize_int_sequence`
(`core.py` lines 152-157): check each value against the bounds and append it
to the accumulator unless already present. -/
def normalizeIntLoop (minimum maximum : Int) (field : PyStr) (acc : List Int) :
    List Int → Except PyErr (List Int)
  | [] => .ok acc
  | v :: rest =>
    if minimum ≤ v ∧ v ≤ maximum then
      if v ∈ acc then normalizeIntLoop minimum maximum field acc rest
      else normalizeIntLoop minimum maximum field (acc ++ [v]) rest
    else
      .error (.dateGeneratorError (rangeMsg field minimum maximum))

/-- Insert into an ascending list, modelling one step of Python `sorted`. -/
def insertAsc (x : Int) : List Int → List Int
  | [] => [x]
  | y :: ys => if x ≤ y then x :: y :: ys else y :: insertAsc x ys

/-- Model of Python `sorted` on a list of ints (insertion sort). -/
def sortAsc (l : List Int) : List Int := l.foldr insertAsc []

/-- Model of `DateGeneratorConfig._normalize_int_sequence`
(`chronogen/core.py` lines 146-158): `None` passes through; otherwise the
values are bounds-checked, deduplicated in encounter order into a fresh
list, and returned sorted ascending. -/
def normalize_int_sequence (values : Option (List Int)) (minimum maximum : Int)
    (field : PyStr) : Except PyErr (Option (List Int)) :=
  match values with
  | none => .ok none
  | some vs =>
    match normalizeIntLoop minimum maximum field [] vs with
    | .error e => .error e
    | .ok l => .ok (some (sortAsc l))

/-- The `case` normalization in `normalized` (`core.py` lines 113-118):
`None` and `""` (falsy) yield `None`; otherwise the lowercased value must be
`"lower"` or `"upper"`. -/
def normalizeCase (caseOpt : Option PyStr) : Except PyErr (Option PyStr) :=
  match caseOpt with
  | none => .ok none
  | some s =>
    if s = [] then .ok none
    else if pyLower s = "lower".toList ∨ pyLower s = "upper".toList then .ok (some (pyLower s))
    else .error (.dateGeneratorError "case must be 'lower' or 'upper' when provided".toList)

/-- Model of `DateGeneratorConfig.normalized` (`chronogen/core.py` lines
107-144). `_validate_pattern` delegates to the platform `strftime` engine,
an external collaborator; its success is modelled as unconditional. -/
def DateGeneratorConfig.normalized (c : DateGeneratorConfig) :
    Except PyErr DateGeneratorConfig :=
  if c.start_year > c.end_year then
    .error (.dateGeneratorError "start_year must be less than or equal to end_year".toList)
  else
    match normalizeCase c.caseOpt with
    | .error e => .error e
    | .ok case_normalized =>
      match normalize_int_sequence c.months 1 12 "months".toList with
      | .error e => .error e
      | .ok months =>
        match normalize_int_sequence c.days 1 31 "days".toList with
        | .error e => .error e
        | .ok days =>
          let format_normalized := if c.format = [] then [] else pyStrip (pyUpper c.format)
          let fmt := if format_normalized = [] then "YYYYMMDD".toList else format_normalized
          if truthyStr c.custom_pattern then
            .ok ⟨c.start_year, c.end_year, fmt, c.separator, c.custom_pattern,
              months, days, c.prefixStr, c.suffixStr, case_normalized, c.reverse⟩
          else
            match parse_format_spec fmt with
            | .error e => .error e
            | .ok _ =>
              .ok ⟨c.start_year, c.end_year, fmt, c.separator, c.custom_pattern,
                months, days, c.prefixStr, c.suffixStr, case_normalized, c.reverse⟩

/-- Model of `calendar.isleap`: proleptic Gregorian leap-year rule. -/
def isleap (y : Int) : Bool := y % 4 = 0 && (y % 100 ≠ 0 || y % 400 = 0)

/-- Model of `calendar.monthrange(year, month)[1]`: the number of days of
the month (`calendar.mdays[month] + (month == 2 and calendar.isleap(year))`). -/
def monthrange_days (y m : Int) : Nat :=
  if m = 2 then (if isleap y then 29 else 28)
  else if m = 4 ∨ m = 6 ∨ m = 9 ∨ m = 11 then 30
  else 31

/-- The inclusive integer interval `lo..hi` as a list
(Python `range(lo, hi + 1)`). -/
def intRange (lo hi : Int) : List Int :=
  (List.range (hi + 1 - lo).toNat).map (fun (i : Nat) => lo + (i : Int))

/-- Python `range(1, n + 1)` as a list of ints. -/
def dayRange (n : Nat) : List Int := (List.range n).map (fun (i : Nat) => (i : Int) + 1)

/-- Model of `self.config.months or tuple(range(1, 13))` (`core.py` line 214):
`None` and the empty tuple are falsy and fall back to all 12 months. -/
def effectiveMonths (c : DateGeneratorConfig) : List Int :=
  match c.months with
  | none => intRange 1 12
  | some [] => intRange 1 12
  | some ms => ms

/-- Model of `DateGenerator._iter_ymd` (`chronogen/core.py` lines 211-238):
the sequence of `(year, month, day)` triples, as a list. -/
def iter_ymd (c : DateGeneratorConfig) : List (Int × Int × Int) :=
  let months := effectiveMonths c
  let years := if c.reverse then (intRange c.start_year c.end_year).reverse
    else intRange c.start_year c.end_year
  let monthsIter := if c.reverse then months.reverse else months
  List.flatMap years (fun year =>
    List.flatMap monthsIter (fun month =>
      let last_day := monthrange_days year month
      let base := match c.days with
        | none => dayRange last_day
        | some ds => ds.filter (fun d => d ≤ (last_day : Int))
      let day_iter := if c.reverse then base.reverse else base
      day_iter.map (fun day => (year, month, day))))

/-- Model of Python `separator.join(parts)`. -/
def pyJoin (sep : PyStr) : List PyStr → PyStr
  | [] => []
  | [x] => x
  | x :: rest => x ++ sep ++ pyJoin sep rest

/-- Model of the f-string `"{n:0wd}"` padding for a natural number. -/
def padNat (width : Nat) (n : Nat) : PyStr :=
  let s := (toString n).toList
  List.replicate (width - s.length) '0' ++ s

/-- Model of the f-string `"{n:0wd}"` padding for an int (the sign counts
toward the width, as in Python). -/
def padInt (width : Nat) (n : Int) : PyStr :=
  if n < 0 then '-' :: padNat (width - 1) n.natAbs else padNat width n.toNat

/-- One token's rendering in `_format_spec` (`core.py` lines 250-258). -/
def renderToken (year month day : Int) : FieldToken → PyStr
  | .Y4 => padInt 4 year
  | .Y2 => padInt 2 (year % 100)
  | .M => padInt 2 month
  | .D => padInt 2 day

/-- Model of `DateGenerator._apply_affixes_and_case`
(`chronogen/core.py` lines 264-269). -/
def apply_affixes_and_case (c : DateGeneratorConfig) (text : PyStr) : PyStr :=
  let text := if c.caseOpt = some "lower".toList then pyLower text
    else if c.caseOpt = some "upper".toList then pyUpper text
    else text
  c.prefixStr ++ text ++ c.suffixStr

/-- Model of `DateGenerator._format_spec` (`chronogen/core.py` lines
246-262) with the compiled tokens passed explicitly (the caching of
`_spec_tokens` is modelled separately in the stateful generator below). -/
def format_spec (c : DateGeneratorConfig) (tokens : List FieldToken)
    (year month day : Int) : PyStr :=
  apply_affixes_and_case c (pyJoin c.separator (tokens.map (renderToken year month day)))

/-- Validity of a `datetime.date(year, month, day)` construction:
`datetime.MINYEAR = 1 ≤ year ≤ 9999 = datetime.MAXYEAR`, `1 ≤ month ≤ 12`
and `1 ≤ day ≤ monthrange(year, month)[1]`. Note that `calendar.monthrange`
itself does not raise for out-of-range years (its internal weekday lookup
remaps them), so the year bound bites only at `date(...)` construction. -/
def dateValid (y m d : Int) : Bool :=
  1 ≤ y && y ≤ 9999 && 1 ≤ m && m ≤ 12 && 1 ≤ d && d ≤ (monthrange_days y m : Int)

/-- The `ValueError` message of a failing `datetime.date` construction,
selected by the first failing check as in `date.__new__` (the year message
omits the interpolated year value). -/
def dateErrorMsg (y m _d : Int) : PyStr :=
  if y < 1 ∨ 9999 < y then "year is out of range".toList
  else if m < 1 ∨ 12 < m then "month must be in 1..12".toList
  else "day is out of range for month".toList

/-- The type of the platform `strftime` collaborator: pattern, year, month,
day to rendered text. -/
abbrev Strftime := PyStr → Int → Int → Int → PyStr

/-- Model of `self.config.custom_pattern or "%Y%m%d"` (`chronogen/core.py` line
243): the pattern handed to the platform engine, with falsy values replaced
by the default. -/
def customPatternArg (c : DateGeneratorConfig) : PyStr :=
  match c.custom_pattern with
  | some p => if p = [] then "%Y%m%d".toList else p
  | none => "%Y%m%d".toList

/-- The text produced for one triple on the custom-pattern path, once the
date is known to be constructible. -/
def customRender (strf : Strftime) (c : DateGeneratorConfig)
    (t : Int × Int × Int) : PyStr :=
  apply_affixes_and_case c (strf (customPatternArg c) t.1 t.2.1 t.2.2)

/-- Model of `DateGenerator._format_custom` (`chronogen/core.py` lines
241-244): construct the date (which checks calendar validity), render it
through the platform pattern engine, then apply affixes and case. -/
def format_custom (strf : Strftime) (c : DateGeneratorConfig)
    (year month day : Int) : Except PyErr PyStr :=
  if dateValid year month day then
    .ok (customRender strf c (year, month, day))
  else .error (.valueError (dateErrorMsg year month day))

/-- The custom-pattern loop of `DateGenerator.generate`
(`chronogen/core.py` lines 187-190), eagerly materialised. -/
def runCustom (strf : Strftime) (c : DateGeneratorConfig) :
    List (Int × Int × Int) → Except PyErr (List PyStr)
  | [] => .ok []
  | (y, m, d) :: rest =>
    match format_custom strf c y m d with
    | .error e => .error e
    | .ok s =>
      match runCustom strf c rest with
      | .error e => .error e
      | .ok l => .ok (s :: l)

/-- Model of `DateGenerator.generate` (`chronogen/core.py` lines 184-193)
on an already-normalized configuration, eagerly materialised into a list.
The lazy `_spec_tokens` cache is semantically transparent here (proved
below on the stateful model); the pure model parses the format directly. -/
def generate (strf : Strftime) (c : DateGeneratorConfig) : Except PyErr (List PyStr) :=
  if truthyStr c.custom_pattern then runCustom strf c (iter_ymd c)
  else
    match parse_format_spec c.format with
    | .error e => .error e
    | .ok tokens =>
      .ok ((iter_ymd c).map (fun t => format_spec c tokens t.1 t.2.1 t.2.2))

/-- A default `strftime` collaborator used for concrete witnesses. -/
def strfDefault : Strftime := fun _ y m d => padInt 4 y ++ padInt 2 m ++ padInt 2 d

/-! ## Stateful model of the `chronogen` generator object

`DateGenerator` lazily compiles `_spec_tokens` the first time `_format_spec`
runs and keeps the tokens for later calls; the generator object state is the
normalized config plus that cache. -/

/-- The mutable state of a `chronogen.DateGenerator` instance
(`core.py` lines 171-179): normalized config plus the `_spec_tokens`
cache. -/
structure GenState where
  config : DateGeneratorConfig
  spec_tokens : Option (List FieldToken)
deriving DecidableEq

/-- Model of `DateGenerator.__init__` from keyword arguments
(`chronogen/core.py` lines 171-179): normalize the configuration, start
with an empty `_spec_tokens` cache. -/
def mkGenerator (c : DateGeneratorConfig) : Except PyErr GenState :=
  match c.normalized with
  | .error e => .error e
  | .ok n => .ok ⟨n, none⟩

/-- Model of `DateGenerator._format_spec` (`chronogen/core.py` lines
246-262) including the lazy `_spec_tokens` compilation and cache write. -/
def format_spec_st (g : GenState) (year month day : Int) :
    Except PyErr (PyStr × GenState) :=
  match g.spec_tokens with
  | some tokens => .ok (format_spec g.config tokens year month day, g)
  | none =>
    match parse_format_spec g.config.format with
    | .error e => .error e
    | .ok tokens => .ok (format_spec g.config tokens year month day, ⟨g.config, some tokens⟩)

/-- The generation loop of `DateGenerator.generate` (`chronogen/core.py`
lines 184-193) threading the generator state through each step. -/
def genLoop (strf : Strftime) (g : GenState) :
    List (Int × Int × Int) → Except PyErr (List PyStr × GenState)
  | [] => .ok ([], g)
  | (y, m, d) :: rest =>
    match (if truthyStr g.config.custom_pattern then
        (format_custom strf g.config y m d).map (fun s => (s, g))
      else format_spec_st g y m d) with
    | .error e => .error e
    | .ok (s, g') =>
      match genLoop strf g' rest with
      | .error e => .error e
      | .ok (l, g'') => .ok (s :: l, g'')

/-- Model of one full call of `DateGenerator.generate`
(`chronogen/core.py` lines 184-193), returning the produced sequence and
the generator state after the call. -/
def generate_st (strf : Strftime) (g : GenState) :
    Except PyErr (List PyStr × GenState) :=
  genLoop strf g (iter_ymd g.config)

/-! ## Model of the `date_generator` package -/

/-- Configuration for the `date_generator` generator
(`date_generator/core.py` lines 95-109); identical to the `chronogen` one
except that the symbolic `format` is replaced by a `preset` key. -/
structure DGConfig where
  start_year : Int
  end_year : Int
  preset : PyStr
  separator : PyStr
  custom_pattern : Option PyStr
  months : Option (List Int)
  days : Option (List Int)
  prefixStr : PyStr
  suffixStr : PyStr
  caseOpt : Option PyStr
  reverse : Bool
deriving DecidableEq

/-- The keys of `FORMAT_PRESETS` (`date_generator/core.py` lines 61-92). -/
def dgPresetKeys : List PyStr :=
  ["ymd".toList, "dmy".toList, "mdy".toList, "dmys".toList, "ymds".toList, "mdys".toList]

/-- The formatter functions of `FORMAT_PRESETS`
(`date_generator/core.py` lines 37-58), as a lookup from key to rendering;
`none` models a `KeyError` on an unknown key. -/
def dgPresetFormat (key : PyStr) (sep : PyStr) (y m d : Int) : Option PyStr :=
  if key = "ymd".toList then some (padInt 4 y ++ sep ++ padInt 2 m ++ sep ++ padInt 2 d)
  else if key = "dmy".toList then some (padInt 2 d ++ sep ++ padInt 2 m ++ sep ++ padInt 4 y)
  else if key = "mdy".toList then some (padInt 2 m ++ sep ++ padInt 2 d ++ sep ++ padInt 4 y)
  else if key = "dmys".toList then some (padInt 2 d ++ sep ++ padInt 2 m ++ sep ++ padInt 2 (y % 100))
  else if key = "ymds".toList then some (padInt 2 (y % 100) ++ sep ++ padInt 2 m ++ sep ++ padInt 2 d)
  else if key = "mdys".toList then some (padInt 2 m ++ sep ++ padInt 2 d ++ sep ++ padInt 2 (y % 100))
  else none

/-- Model of `DateGeneratorConfig.normalized` of the `date_generator`
package (`date_generator/core.py` lines 111-148): same checks as the
`chronogen` one except that instead of parsing a symbolic format it
requires `preset ∈ FORMAT_PRESETS` whenever no custom pattern is given. -/
def DGConfig.normalized (c : DGConfig) : Except PyErr DGConfig :=
  if c.start_year > c.end_year then
    .error (.dateGeneratorError "start_year must be less than or equal to end_year".toList)
  else
    match normalizeCase c.caseOpt with
    | .error e => .error e
    | .ok case_normalized =>
      match normalize_int_sequence c.months 1 12 "months".toList with
      | .error e => .error e
      | .ok months =>
        match normalize_int_sequence c.days 1 31 "days".toList with
        | .error e => .error e
        | .ok days =>
          if c.preset ∉ dgPresetKeys ∧ ¬ truthyStr c.custom_pattern then
            .error (.dateGeneratorError "preset must be one of the known presets when custom_pattern is not provided".toList)
          else
            .ok ⟨c.start_year, c.end_year, c.preset, c.separator, c.custom_pattern,
              months, days, c.prefixStr, c.suffixStr, case_normalized, c.reverse⟩

/-- Model of `self.config.months or tuple(range(1, 13))` for the `date_generator`
package (`date_generator/core.py` line 209). -/
def dgEffectiveMonths (c : DGConfig) : List Int :=
  match c.months with
  | none => intRange 1 12
  | some [] => intRange 1 12
  | some ms => ms

/-- The raw `(year, month, day)` walk of `DateGenerator._iter_dates`
(`date_generator/core.py` lines 208-237), before the `date(...)`
construction of each triple. -/
def dg_iter_raw (c : DGConfig) : List (Int × Int × Int) :=
  let months := dgEffectiveMonths c
  let years := if c.reverse then (intRange c.start_year c.end_year).reverse
    else intRange c.start_year c.end_year
  let monthsIter := if c.reverse then months.reverse else months
  List.flatMap years (fun year =>
    List.flatMap monthsIter (fun month =>
      let last_day := monthrange_days year month
      let base := match c.days with
        | none => dayRange last_day
        | some ds => ds.filter (fun d => d ≤ (last_day : Int))
      let day_iter := if c.reverse then base.reverse else base
      day_iter.map (fun day => (year, month, day))))

/-- The `date(year, month, day)` constructions performed while
`_iter_dates` yields (`date_generator/core.py` line 237): each triple must
be a valid calendar date or a `ValueError` escapes. -/
def dgCheckDates : List (Int × Int × Int) → Except PyErr (List (Int × Int × Int))
  | [] => .ok []
  | (y, m, d) :: rest =>
    if dateValid y m d then
      match dgCheckDates rest with
      | .error e => .error e
      | .ok l => .ok ((y, m, d) :: l)
    else .error (.valueError (dateErrorMsg y m d))

/-- Model of `DateGenerator._format` (`date_generator/core.py` lines
239-248): render through the custom pattern or the preset table, apply the
case transform to the rendered text, then wrap with prefix/suffix. -/
def dg_format (strf : Strftime) (c : DGConfig) (y m d : Int) : Except PyErr PyStr :=
  if truthyStr c.custom_pattern then
    .ok (let formatted := strf (match c.custom_pattern with | some p => p | none => []) y m d
      let formatted := if c.caseOpt = some "lower".toList then pyLower formatted
        else if c.caseOpt = some "upper".toList then pyUpper formatted
        else formatted
      c.prefixStr ++ formatted ++ c.suffixStr)
  else
    match dgPresetFormat c.preset c.separator y m d with
    | none => .error (.keyError c.preset)
    | some formatted =>
      .ok (let formatted := if c.caseOpt = some "lower".toList then pyLower formatted
        else if c.caseOpt = some "upper".toList then pyUpper formatted
        else formatted
      c.prefixStr ++ formatted ++ c.suffixStr)

/-- The loop of `date_generator`'s `DateGenerator.generate`
(`date_generator/core.py` lines 187-191). -/
def dgRun (strf : Strftime) (c : DGConfig) :
    List (Int × Int × Int) → Except PyErr (List PyStr)
  | [] => .ok []
  | (y, m, d) :: rest =>
    match dg_format strf c y m d with
    | .error e => .error e
    | .ok s =>
      match dgRun strf c rest with
      | .error e => .error e
      | .ok l => .ok (s :: l)

/-- Model of `date_generator`'s `DateGenerator.generate`
(`date_generator/core.py` lines 187-191) on an already-normalized
configuration, eagerly materialised. -/
def dg_generate (strf : Strftime) (c : DGConfig) : Except PyErr (List PyStr) :=
  match dgCheckDates (dg_iter_raw c) with
  | .error e => .error e
  | .ok triples => dgRun strf c triples

/-! ## Claim C1 -/

/-- The C1 configuration: `start_year=2024, end_year=2024,
format="YYYYMMDD", separator="-"`, everything else defaulted. -/
def cfg2024 : DateGeneratorConfig :=
  ⟨2024, 2024, "YYYYMMDD".toList, "-".toList, none, none, none, [], [], none, false⟩

/-- A single-year configuration with format `YYYYMMDD`, separator `-`, and
no filters, used to count the days generated for February of year `y`. -/
def singleYearCfg (y : Int) : DateGeneratorConfig :=
  ⟨y, y, "YYYYMMDD".toList, "-".toList, none, none, none, [], [], none, false⟩

theorem intRange_self (y : Int) : intRange y y = [y] := by
  have h : (y + 1 - y : Int) = 1 := by ring
  rw [intRange, h]
  have h1 : (1 : Int).toNat = 1 := rfl
  have h2 : List.range 1 = [0] := rfl
  rw [h1, h2]
  simp

theorem intRange_1_12 : intRange 1 12 = [1, 2, 3, 4, 5, 6, 7, 8, 9, 10, 11, 12] := by decide

theorem febCount (y : Int) :
    (((iter_ymd (singleYearCfg y)).filter (fun t => decide (t.2.1 = 2))).length : Nat) =
      monthrange_days y 2 := by
  simp only [iter_ymd, singleYearCfg, effectiveMonths, intRange_self, intRange_1_12]
  simp [List.flatMap_cons, List.filter_append, List.filter_map, Function.comp_def, dayRange,
    List.filter_map]

set_option maxRecDepth 8192 in
/-- C1: for the configuration `start_year=2024, end_year=2024,
format="YYYYMMDD", separator="-"` (no custom pattern, no filters, no
affixes/case, `reverse=false`), `generate` yields exactly 366 strings, the
first `"2024-01-01"` and the last `"2024-12-31"`; and the number of days
produced for February of a year `y` is 29 exactly when `y` is divisible by
4 and not a century year unless divisible by 400. -/
theorem claim_C1 :
    ((generate strfDefault cfg2024).map List.length = .ok 366 ∧
      (generate strfDefault cfg2024).map List.head? = .ok (some "2024-01-01".toList) ∧
      (generate strfDefault cfg2024).map List.getLast? = .ok (some "2024-12-31".toList)) ∧
    ∀ y : Int,
      (((iter_ymd (singleYearCfg y)).filter (fun t => decide (t.2.1 = 2))).length = 29 ↔
        (y % 4 = 0 ∧ (y % 100 ≠ 0 ∨ y % 400 = 0))) := by
  constructor
  · exact ⟨by decide, by decide, by decide⟩
  · intro y
    rw [febCount]
    have hml : monthrange_days y 2 = if isleap y then 29 else 28 := by
      simp [monthrange_days]
    rw [hml]
    by_cases h : isleap y
    · have h' : y % 4 = 0 ∧ (y % 100 ≠ 0 ∨ y % 400 = 0) := by
        simpa [isleap, Bool.and_eq_true, Bool.or_eq_true, decide_eq_true_eq] using h
      simp only [h, if_true]
      exact iff_of_true trivial h'
    · have h' : ¬ (y % 4 = 0 ∧ (y % 100 ≠ 0 ∨ y % 400 = 0)) := by
        simpa [isleap, Bool.and_eq_true, Bool.or_eq_true, decide_eq_true_eq] using h
      simp only [h, if_false]
      exact iff_of_false (by decide) h'

/-! ## Claim C4 -/

/-- The same configuration with the `reverse` flag replaced. -/
def withReverse (c : DateGeneratorConfig) (b : Bool) : DateGeneratorConfig :=
  ⟨c.start_year, c.end_year, c.format, c.separator, c.custom_pattern,
    c.months, c.days, c.prefixStr, c.suffixStr, c.caseOpt, b⟩

theorem runCustom_ok_of_valid (strf : Strftime) (c : DateGeneratorConfig) :
    ∀ trips : List (Int × Int × Int),
      (∀ t ∈ trips, dateValid t.1 t.2.1 t.2.2 = true) →
      runCustom strf c trips = .ok (trips.map (customRender strf c))
  | [], _ => rfl
  | (y, m, d) :: rest, h => by
    have hv : dateValid y m d = true := h (y, m, d) (List.mem_cons_self _ _)
    have ih := runCustom_ok_of_valid strf c rest (fun t ht => h t (List.mem_cons_of_mem _ ht))
    simp [runCustom, format_custom, hv, ih]

theorem runCustom_ok_valid (strf : Strftime) (c : DateGeneratorConfig) :
    ∀ (trips : List (Int × Int × Int)) (out : List PyStr),
      runCustom strf c trips = .ok out →
      (∀ t ∈ trips, dateValid t.1 t.2.1 t.2.2 = true) ∧
        out = trips.map (customRender strf c) := by
  intro trips
  induction trips with
  | nil =>
    intro out h
    simp only [runCustom, Except.ok.injEq] at h
    simp [h.symm]
  | cons t rest ih =>
    intro out h
    obtain ⟨y, m, d⟩ := t
    simp only [runCustom] at h
    cases hfc : format_custom strf c y m d with
    | error e => rw [hfc] at h; exact absurd h (by simp)
    | ok s =>
      rw [hfc] at h
      cases hrc : runCustom strf c rest with
      | error e => rw [hrc] at h; exact absurd h (by simp)
      | ok l =>
        rw [hrc] at h
        simp only [Except.ok.injEq] at h
        obtain ⟨hv, hl⟩ := ih l hrc
        have hs : dateValid y m d = true ∧ s = customRender strf c (y, m, d) := by
          by_cases hd : dateValid y m d = true
          · simp only [format_custom, hd, if_true, Except.ok.injEq] at hfc
            exact ⟨hd, hfc.symm⟩
          · simp [format_custom, hd] at hfc
        constructor
        · intro u hu
          rcases List.mem_cons.mp hu with h1 | h2
          · cases h1; exact hs.1
          · exact hv u h2
        · rw [← h, hs.2, hl]
          rfl

theorem iter_ymd_withReverse (c : DateGeneratorConfig) :
    iter_ymd (withReverse c true) = (iter_ymd (withReverse c false)).reverse := by
  have hm : effectiveMonths (withReverse c true) = effectiveMonths (withReverse c false) := rfl
  simp only [iter_ymd, hm]
  simp only [show (withReverse c true).reverse = true from rfl,
    show (withReverse c false).reverse = false from rfl,
    show ∀ b, (withReverse c b).start_year = c.start_year from fun _ => rfl,
    show ∀ b, (withReverse c b).end_year = c.end_year from fun _ => rfl,
    show ∀ b, (withReverse c b).days = c.days from fun _ => rfl]
  simp [List.reverse_flatMap, Function.comp_def, List.map_reverse]

/-- C4: for every configuration, the sequence of `(year, month, day)`
triples produced with `reverse=true` is exactly the reverse of the sequence
produced by the otherwise-identical configuration with `reverse=false`, and
likewise for the rendered strings produced by `generate`; the stored
`months`/`days` are read unchanged (the direction is applied only at
iteration time). -/
theorem claim_C4 (c : DateGeneratorConfig) :
    iter_ymd (withReverse c true) = (iter_ymd (withReverse c false)).reverse ∧
    ∀ (strf : Strftime) (l : List PyStr),
      generate strf (withReverse c false) = .ok l →
      generate strf (withReverse c true) = .ok l.reverse := by
  refine ⟨iter_ymd_withReverse c, ?_⟩
  intro strf l h
  by_cases hcp : truthyStr c.custom_pattern = true
  · have hcpf : truthyStr (withReverse c false).custom_pattern = true := hcp
    have hcpt : truthyStr (withReverse c true).custom_pattern = true := hcp
    simp only [generate, hcpf, if_true] at h
    simp only [generate, hcpt, if_true]
    obtain ⟨hv, hl⟩ := runCustom_ok_valid strf (withReverse c false) _ l h
    have hv' : ∀ t ∈ iter_ymd (withReverse c true), dateValid t.1 t.2.1 t.2.2 = true := by
      intro t ht
      rw [iter_ymd_withReverse c, List.mem_reverse] at ht
      exact hv t ht
    rw [runCustom_ok_of_valid strf (withReverse c true) _ hv']
    have hr : customRender strf (withReverse c true) = customRender strf (withReverse c false) := rfl
    rw [iter_ymd_withReverse c, hr, List.map_reverse, hl]
  · have hcpf : truthyStr (withReverse c false).custom_pattern = false := by
      simpa using hcp
    have hcpt : truthyStr (withReverse c true).custom_pattern = false := hcpf
    simp only [generate, hcpf, Bool.false_eq_true, if_false] at h
    simp only [generate, hcpt, Bool.false_eq_true, if_false]
    have hfmt : (withReverse c true).format = (withReverse c false).format := rfl
    rw [hfmt]
    cases hp : parse_format_spec (withReverse c false).format with
    | error e => rw [hp] at h; exact absurd h (by simp)
    | ok tokens =>
      rw [hp] at h
      simp only [Except.ok.injEq] at h
      have hfs : format_spec (withReverse c true) = format_spec (withReverse c false) := rfl
      rw [iter_ymd_withReverse c, hfs]
      simp only [List.map_reverse, h]

/-- A small concrete configuration used by witnesses. -/
def c4wCfg : DateGeneratorConfig :=
  ⟨2024, 2024, "YYYYMMDD".toList, "-".toList, none, some [1], some [1, 2], [], [], none, false⟩

/-- Concrete instantiation of `claim_C4`: reversing the two-day January
2024 sequence. -/
theorem claim_C4_witness :
    generate strfDefault (withReverse c4wCfg true) =
      .ok ["2024-01-01".toList, "2024-01-02".toList].reverse :=
  (claim_C4 c4wCfg).2 strfDefault ["2024-01-01".toList, "2024-01-02".toList] (by decide)

/-! ## Claim C5 -/

theorem mem_intRange {x lo hi : Int} : x ∈ intRange lo hi ↔ lo ≤ x ∧ x ≤ hi := by
  simp only [intRange, List.mem_map, List.mem_range]
  constructor
  · rintro ⟨i, hi', rfl⟩
    omega
  · intro hx
    refine ⟨(x - lo).toNat, by omega, by omega⟩

theorem mem_dayRange {d : Int} {n : Nat} : d ∈ dayRange n ↔ 1 ≤ d ∧ d ≤ n := by
  simp only [dayRange, List.mem_map, List.mem_range]
  constructor
  · rintro ⟨i, hi', rfl⟩
    omega
  · intro hx
    refine ⟨(d - 1).toNat, by omega, by omega⟩

theorem mem_insertAsc {x y : Int} {l : List Int} : x ∈ insertAsc y l ↔ x = y ∨ x ∈ l := by
  induction l with
  | nil => simp [insertAsc]
  | cons a as ih =>
    by_cases hy : y ≤ a
    · simp [insertAsc, hy]
    · simp only [insertAsc, hy, if_false, List.mem_cons, ih]
      tauto

theorem mem_sortAsc {x : Int} {l : List Int} : x ∈ sortAsc l ↔ x ∈ l := by
  induction l with
  | nil => simp [sortAsc]
  | cons a as ih =>
    simp only [sortAsc, List.foldr_cons] at ih ⊢
    rw [mem_insertAsc, ih, List.mem_cons]

theorem normalizeIntLoop_ok_bounds {minimum maximum : Int} {field : PyStr} :
    ∀ {acc vs r : List Int}, normalizeIntLoop minimum maximum field acc vs = .ok r →
      ∀ x ∈ r, x ∈ acc ∨ (minimum ≤ x ∧ x ≤ maximum) := by
  intro acc vs
  induction vs generalizing acc with
  | nil =>
    intro r h x hx
    simp only [normalizeIntLoop, Except.ok.injEq] at h
    exact Or.inl (h ▸ hx)
  | cons v rest ih =>
    intro r h x hx
    simp only [normalizeIntLoop] at h
    split at h
    · split at h
      · exact ih h x hx
      · rcases ih h x hx with hacc | hb
        · rcases List.mem_append.mp hacc with h1 | h2
          · exact Or.inl h1
          · simp only [List.mem_singleton] at h2
            subst h2
            right
            assumption
        · exact Or.inr hb
    · exact absurd h (by simp)

theorem normalize_int_sequence_ok_bounds {values : Option (List Int)}
    {minimum maximum : Int} {field : PyStr} {r : Option (List Int)}
    (h : normalize_int_sequence values minimum maximum field = .ok r) :
    ∀ l, r = some l → ∀ x ∈ l, minimum ≤ x ∧ x ≤ maximum := by
  intro l hl x hx
  cases values with
  | none =>
    simp only [normalize_int_sequence, Except.ok.injEq] at h
    subst h
    cases hl
  | some vs =>
    simp only [normalize_int_sequence] at h
    cases hloop : normalizeIntLoop minimum maximum field [] vs with
    | error e => rw [hloop] at h; exact absurd h (by simp)
    | ok l0 =>
      rw [hloop] at h
      simp only [Except.ok.injEq] at h
      rw [← h] at hl
      cases hl
      rcases normalizeIntLoop_ok_bounds hloop x (mem_sortAsc.mp hx) with h1 | h2
      · cases h1
      · exact h2

/-- Characterization of a successful `normalized` call: the checks all
passed and the result fields are as built on `core.py` lines 131-143. -/
theorem normalized_ok_elim (cfg c : DateGeneratorConfig)
    (h : cfg.normalized = .ok c) :
    ¬ cfg.start_year > cfg.end_year ∧
    ∃ caseN months days,
      normalizeCase cfg.caseOpt = .ok caseN ∧
      normalize_int_sequence cfg.months 1 12 "months".toList = .ok months ∧
      normalize_int_sequence cfg.days 1 31 "days".toList = .ok days ∧
      c = ⟨cfg.start_year, cfg.end_year, c.format, cfg.separator, cfg.custom_pattern,
        months, days, cfg.prefixStr, cfg.suffixStr, caseN, cfg.reverse⟩ := by
  unfold DateGeneratorConfig.normalized at h
  split at h
  · exact absurd h (by simp)
  next h1 =>
    refine ⟨h1, ?_⟩
    split at h
    · exact absurd h (by simp)
    next caseN hcase =>
      split at h
      · exact absurd h (by simp)
      next months hms =>
        split at h
        · exact absurd h (by simp)
        next days hds =>
          refine ⟨caseN, months, days, hcase, hms, hds, ?_⟩
          dsimp only at h
          split at h
          · have he := (Except.ok.inj h).symm
            subst he
            rfl
          · split at h
            · exact absurd h (by simp)
            · have he := (Except.ok.inj h).symm
              subst he
              rfl

/-- The field invariants established by `normalized` that the iterator
relies on: every month filter value lies in `[1, 12]` and every day filter
value lies in `[1, 31]`. -/
def ValidFields (c : DateGeneratorConfig) : Prop :=
  (∀ ms, c.months = some ms → ∀ m ∈ ms, 1 ≤ m ∧ m ≤ 12) ∧
  (∀ ds, c.days = some ds → ∀ d ∈ ds, 1 ≤ d ∧ d ≤ 31)

theorem normalized_ValidFields (cfg c : DateGeneratorConfig)
    (h : cfg.normalized = .ok c) : ValidFields c := by
  obtain ⟨-, caseN, months, days, -, hms, hds, hc⟩ := normalized_ok_elim cfg c h
  have hcm : c.months = months := by rw [hc]
  have hcd : c.days = days := by rw [hc]
  constructor
  · intro ms hms' m hm
    exact normalize_int_sequence_ok_bounds hms ms (hcm ▸ hms') m hm
  · intro ds hds' d hd
    exact normalize_int_sequence_ok_bounds hds ds (hcd ▸ hds') d hd

theorem effectiveMonths_bounds (c : DateGeneratorConfig) (hv : ValidFields c) :
    ∀ m ∈ effectiveMonths c, 1 ≤ m ∧ m ≤ 12 := by
  intro m hm
  cases hcm : c.months with
  | none =>
    simp only [effectiveMonths, hcm] at hm
    exact mem_intRange.mp hm
  | some ms =>
    cases ms with
    | nil =>
      simp only [effectiveMonths, hcm] at hm
      exact mem_intRange.mp hm
    | cons a as =>
      simp only [effectiveMonths, hcm] at hm
      exact hv.1 (a :: as) hcm m hm

theorem iter_ymd_valid (c : DateGeneratorConfig) (hv : ValidFields c) :
    ∀ t ∈ iter_ymd c, 1 ≤ t.2.1 ∧ t.2.1 ≤ 12 ∧ 1 ≤ t.2.2 ∧
      t.2.2 ≤ (monthrange_days t.1 t.2.1 : Int) := by
  intro t ht
  simp only [iter_ymd, List.mem_flatMap, List.mem_map] at ht
  obtain ⟨year, hyear, month, hmonth, day, hday, rfl⟩ := ht
  have hmonth' : month ∈ effectiveMonths c := by
    rcases hr : c.reverse with _ | _
    · rw [hr] at hmonth
      simpa using hmonth
    · rw [hr] at hmonth
      simpa [List.mem_reverse] using hmonth
  have hmb := effectiveMonths_bounds c hv month hmonth'
  have hday' : day ∈ (match c.days with
      | none => dayRange (monthrange_days year month)
      | some ds => ds.filter (fun d => d ≤ (monthrange_days year month : Int))) := by
    rcases hr : c.reverse with _ | _
    · rw [hr] at hday
      simpa using hday
    · rw [hr] at hday
      simpa [List.mem_reverse] using hday
  have hdb : 1 ≤ day ∧ day ≤ (monthrange_days year month : Int) := by
    cases hcd : c.days with
    | none =>
      rw [hcd] at hday'
      exact mem_dayRange.mp hday'
    | some ds =>
      rw [hcd] at hday'
      have := List.mem_filter.mp hday'
      refine ⟨(hv.2 ds hcd day this.1).1, by simpa using this.2⟩
  exact ⟨hmb.1, hmb.2, hdb.1, hdb.2⟩

theorem iter_ymd_year_bounds (c : DateGeneratorConfig) :
    ∀ t ∈ iter_ymd c, c.start_year ≤ t.1 ∧ t.1 ≤ c.end_year := by
  intro t ht
  simp only [iter_ymd, List.mem_flatMap, List.mem_map] at ht
  obtain ⟨year, hyear, month, hmonth, day, hday, rfl⟩ := ht
  have hy : year ∈ intRange c.start_year c.end_year := by
    rcases hr : c.reverse with _ | _
    · rw [hr] at hyear
      simpa using hyear
    · rw [hr] at hyear
      simpa [List.mem_reverse] using hyear
  exact mem_intRange.mp hy

/-- C5 (amended): for every configuration produced by `normalized`, every
emitted `(year, month, day)` triple satisfies `1 ≤ day ≤
days_in_month(year, month)` (out-of-range filtered days are silently
skipped), and — provided the year range lies within `datetime`'s supported
years, `1 ≤ start_year` and `end_year ≤ 9999` — every triple is a valid
`datetime.date`, so the calendar-date construction on the custom-pattern
rendering path cannot fail: the custom loop succeeds on the whole iterator
output. (Outside those year bounds the construction raises `ValueError`;
see the counterexample at year 0.) -/
theorem claim_C5 (cfg c : DateGeneratorConfig) (h : cfg.normalized = .ok c) :
    (∀ t ∈ iter_ymd c, 1 ≤ t.2.2 ∧ t.2.2 ≤ (monthrange_days t.1 t.2.1 : Int)) ∧
    (1 ≤ c.start_year → c.end_year ≤ 9999 →
      (∀ t ∈ iter_ymd c, dateValid t.1 t.2.1 t.2.2 = true) ∧
      ∀ strf : Strftime,
        runCustom strf c (iter_ymd c) = .ok ((iter_ymd c).map (customRender strf c))) := by
  have hv := normalized_ValidFields cfg c h
  have hb := iter_ymd_valid c hv
  refine ⟨fun t ht => ⟨(hb t ht).2.2.1, (hb t ht).2.2.2⟩, ?_⟩
  intro hy1 hy2
  have hd : ∀ t ∈ iter_ymd c, dateValid t.1 t.2.1 t.2.2 = true := by
    intro t ht
    obtain ⟨h1, h2, h3, h4⟩ := hb t ht
    obtain ⟨h5, h6⟩ := iter_ymd_year_bounds c t ht
    simp only [dateValid, Bool.and_eq_true, decide_eq_true_eq]
    refine ⟨⟨⟨⟨⟨?_, ?_⟩, h1⟩, h2⟩, h3⟩, h4⟩
    · omega
    · omega
  exact ⟨hd, fun strf => runCustom_ok_of_valid strf c _ hd⟩

/-- Raw and normalized forms of a small configuration exercising the
February day filter, used by the C5 witness. -/
def c5wRaw : DateGeneratorConfig :=
  ⟨2024, 2024, "YYYYMMDD".toList, "-".toList, none, some [2], some [31, 29], [], [], none, false⟩

def c5wNorm : DateGeneratorConfig :=
  ⟨2024, 2024, "YYYYMMDD".toList, "-".toList, none, some [2], some [29, 31], [], [], none, false⟩

/-- Concrete instantiation of `claim_C5`: day 31 is silently dropped for
February 2024 and the custom-pattern loop succeeds. -/
theorem claim_C5_witness :
    runCustom strfDefault c5wNorm (iter_ymd c5wNorm) =
      .ok ((iter_ymd c5wNorm).map (customRender strfDefault c5wNorm)) :=
  (((claim_C5 c5wRaw c5wNorm (by decide)).2 (by decide) (by decide)).2) strfDefault

/-- A configuration at year 0 with a custom pattern: it normalizes, but
`datetime.date(0, 1, 1)` is out of `date`'s year range. -/
def c5xCfg : DateGeneratorConfig :=
  ⟨0, 0, "YYYYMMDD".toList, [], some "%Y%m%d".toList, some [1], some [1], [], [], none, false⟩

/-- Counterexample to C5 as stated: the year-0 configuration normalizes to
itself, the iterator emits `(0, 1, 1)`, and the custom-pattern path — both
the loop and the full `generate` — fails with the `ValueError` of the
`date` construction. -/
theorem claim_C5_counterexample :
    c5xCfg.normalized = .ok c5xCfg ∧
    iter_ymd c5xCfg = [(0, 1, 1)] ∧
    runCustom strfDefault c5xCfg (iter_ymd c5xCfg) =
      .error (.valueError "year is out of range".toList) ∧
    generate strfDefault c5xCfg =
      .error (.valueError "year is out of range".toList) := by
  decide

/-! ## Claim C7 -/

theorem normalizeIntLoop_error_of_bad {minimum maximum : Int} {field : PyStr} :
    ∀ {vs : List Int} (acc : List Int), (∃ v ∈ vs, v < minimum ∨ maximum < v) →
      normalizeIntLoop minimum maximum field acc vs =
        .error (.dateGeneratorError (rangeMsg field minimum maximum)) := by
  intro vs
  induction vs with
  | nil => rintro acc ⟨v, hv, -⟩; cases hv
  | cons v rest ih =>
    rintro acc ⟨w, hw, hbad⟩
    rcases List.mem_cons.mp hw with rfl | hw'
    · have hmw : ¬ (minimum ≤ w ∧ w ≤ maximum) := by omega
      simp only [normalizeIntLoop]
      rw [if_neg hmw]
    · by_cases hv : minimum ≤ v ∧ v ≤ maximum
      · simp only [normalizeIntLoop]
        rw [if_pos hv]
        by_cases hacc : v ∈ acc
        · rw [if_pos hacc]
          exact ih acc ⟨w, hw', hbad⟩
        · rw [if_neg hacc]
          exact ih (acc ++ [v]) ⟨w, hw', hbad⟩
      · simp only [normalizeIntLoop]
        rw [if_neg hv]

theorem normalizeIntLoop_ok_of_good {minimum maximum : Int} {field : PyStr} :
    ∀ {vs : List Int} (acc : List Int), (∀ v ∈ vs, minimum ≤ v ∧ v ≤ maximum) →
      ∃ r, normalizeIntLoop minimum maximum field acc vs = .ok r := by
  intro vs
  induction vs with
  | nil => intro acc _; exact ⟨acc, rfl⟩
  | cons v rest ih =>
    intro acc hgood
    have hv : minimum ≤ v ∧ v ≤ maximum := hgood v (List.mem_cons_self _ _)
    have hrest : ∀ w ∈ rest, minimum ≤ w ∧ w ≤ maximum :=
      fun w hw => hgood w (List.mem_cons_of_mem _ hw)
    simp only [normalizeIntLoop]
    rw [if_pos hv]
    by_cases hacc : v ∈ acc
    · rw [if_pos hacc]
      exact ih acc hrest
    · rw [if_neg hacc]
      exact ih (acc ++ [v]) hrest

/-- C7: constructing a generator raises a `DateGeneratorError` (the
`RangeError` family) eagerly — `normalized`, and hence `__init__`, fails
before any date is produced — whenever `start_year > end_year`, a `months`
value is outside `[1,12]`, a `days` value is outside `[1,31]`, or a
(truthy) `case` value does not lowercase to `lower`/`upper`; the message is
one of the four range-validation messages. -/
theorem claim_C7 (cfg : DateGeneratorConfig)
    (h : cfg.start_year > cfg.end_year ∨
      (∃ ms, cfg.months = some ms ∧ ∃ m ∈ ms, m < 1 ∨ 12 < m) ∨
      (∃ ds, cfg.days = some ds ∧ ∃ d ∈ ds, d < 1 ∨ 31 < d) ∨
      (∃ s, cfg.caseOpt = some s ∧ s ≠ [] ∧
        pyLower s ≠ "lower".toList ∧ pyLower s ≠ "upper".toList)) :
    ∃ msg, cfg.normalized = .error (.dateGeneratorError msg) ∧
      mkGenerator cfg = .error (.dateGeneratorError msg) ∧
      (msg = "start_year must be less than or equal to end_year".toList ∨
       msg = "case must be 'lower' or 'upper' when provided".toList ∨
       msg = rangeMsg "months".toList 1 12 ∨
       msg = rangeMsg "days".toList 1 31) := by
  have hgen : ∀ msg, cfg.normalized = .error (.dateGeneratorError msg) →
      mkGenerator cfg = .error (.dateGeneratorError msg) := by
    intro msg hn
    simp only [mkGenerator, hn]
  by_cases h1 : cfg.start_year > cfg.end_year
  · refine ⟨_, ?_, ?_, Or.inl rfl⟩
    · simp only [DateGeneratorConfig.normalized, h1, if_true]
    · apply hgen
      simp only [DateGeneratorConfig.normalized, h1, if_true]
  · cases hcase : normalizeCase cfg.caseOpt with
    | error e =>
      have he : e = .dateGeneratorError "case must be 'lower' or 'upper' when provided".toList := by
        unfold normalizeCase at hcase
        split at hcase
        · exact absurd hcase (by simp)
        · split at hcase
          · exact absurd hcase (by simp)
          · split at hcase
            · exact absurd hcase (by simp)
            · exact (Except.error.inj hcase).symm
      subst he
      have hn : cfg.normalized =
          .error (.dateGeneratorError "case must be 'lower' or 'upper' when provided".toList) := by
        simp only [DateGeneratorConfig.normalized, h1, if_false, hcase]
      exact ⟨_, hn, hgen _ hn, Or.inr (Or.inl rfl)⟩
    | ok caseN =>
      by_cases hm : ∃ ms, cfg.months = some ms ∧ ∃ m ∈ ms, m < 1 ∨ 12 < m
      · obtain ⟨ms, hms, hbad⟩ := hm
        have hloop := @normalizeIntLoop_error_of_bad 1 12 "months".toList ms [] hbad
        have hmErr : normalize_int_sequence cfg.months 1 12 "months".toList =
            .error (.dateGeneratorError (rangeMsg "months".toList 1 12)) := by
          simp only [normalize_int_sequence, hms, hloop]
        have hn : cfg.normalized =
            .error (.dateGeneratorError (rangeMsg "months".toList 1 12)) := by
          simp only [DateGeneratorConfig.normalized, h1, if_false, hcase, hmErr]
        exact ⟨_, hn, hgen _ hn, Or.inr (Or.inr (Or.inl rfl))⟩
      · by_cases hd : ∃ ds, cfg.days = some ds ∧ ∃ d ∈ ds, d < 1 ∨ 31 < d
        · obtain ⟨ds, hds, hbad⟩ := hd
          have hmonths_ok : ∃ r, normalize_int_sequence cfg.months 1 12 "months".toList = .ok r := by
            cases hcm : cfg.months with
            | none => exact ⟨none, rfl⟩
            | some ms =>
              have hgood : ∀ v ∈ ms, 1 ≤ v ∧ v ≤ 12 := by
                intro v hv
                by_contra hc
                exact hm ⟨ms, hcm, v, hv, by omega⟩
              obtain ⟨r, hr⟩ := @normalizeIntLoop_ok_of_good 1 12 "months".toList ms [] hgood
              exact ⟨some (sortAsc r), by simp only [normalize_int_sequence, hr]⟩
          obtain ⟨mr, hmr⟩ := hmonths_ok
          have hloop := @normalizeIntLoop_error_of_bad 1 31 "days".toList ds [] hbad
          have hdErr : normalize_int_sequence cfg.days 1 31 "days".toList =
              .error (.dateGeneratorError (rangeMsg "days".toList 1 31)) := by
            simp only [normalize_int_sequence, hds, hloop]
          have hn : cfg.normalized =
              .error (.dateGeneratorError (rangeMsg "days".toList 1 31)) := by
            simp only [DateGeneratorConfig.normalized, h1, if_false, hcase, hmr, hdErr]
          exact ⟨_, hn, hgen _ hn, Or.inr (Or.inr (Or.inr rfl))⟩
        · rcases h with h | h | h | h
          · exact absurd h h1
          · exact absurd h hm
          · exact absurd h hd
          · obtain ⟨s, hs, hne, hl, hu⟩ := h
            have : normalizeCase cfg.caseOpt =
                .error (.dateGeneratorError "case must be 'lower' or 'upper' when provided".toList) := by
              simp only [normalizeCase, hs]
              rw [if_neg hne, if_neg (not_or.mpr ⟨hl, hu⟩)]
            rw [this] at hcase
            exact absurd hcase (by simp)

/-- A configuration violating the year-range check, used by the C7
witness. -/
def c7wCfg : DateGeneratorConfig :=
  ⟨2025, 2024, "YYYYMMDD".toList, [], none, none, none, [], [], none, false⟩

/-- Concrete instantiation of `claim_C7`: `start_year=2025 > end_year=2024`
fails construction eagerly. -/
theorem claim_C7_witness :
    ∃ msg, c7wCfg.normalized = .error (.dateGeneratorError msg) ∧
      mkGenerator c7wCfg = .error (.dateGeneratorError msg) ∧
      (msg = "start_year must be less than or equal to end_year".toList ∨
       msg = "case must be 'lower' or 'upper' when provided".toList ∨
       msg = rangeMsg "months".toList 1 12 ∨
       msg = rangeMsg "days".toList 1 31) :=
  claim_C7 c7wCfg (Or.inl (by decide))

/-! ## Claim C6 -/

/-- The case transform of `_apply_affixes_and_case` in isolation:
lowercase, uppercase, or identity, selected by the normalized `case`. -/
def caseTransform (caseOpt : Option PyStr) (text : PyStr) : PyStr :=
  if caseOpt = some "lower".toList then pyLower text
  else if caseOpt = some "upper".toList then pyUpper text
  else text

/-- C6: every string produced by `generate` is exactly
`prefix ++ t(rendered) ++ suffix` where `t` is the configured case
transform (identity when no case is configured) applied only to the
rendered date portion — the prefix and suffix are concatenated
unmodified, on both the custom-pattern and the symbolic-format path. -/
theorem claim_C6 (c : DateGeneratorConfig) (strf : Strftime) (l : List PyStr)
    (h : generate strf c = .ok l) :
    (∀ text, caseTransform none text = text) ∧
    (truthyStr c.custom_pattern = true →
      ∀ s ∈ l, ∃ t ∈ iter_ymd c,
        s = c.prefixStr ++
          caseTransform c.caseOpt (strf (customPatternArg c) t.1 t.2.1 t.2.2) ++ c.suffixStr) ∧
    (truthyStr c.custom_pattern = false →
      ∃ tokens, parse_format_spec c.format = .ok tokens ∧
        ∀ s ∈ l, ∃ t ∈ iter_ymd c,
          s = c.prefixStr ++
            caseTransform c.caseOpt
              (pyJoin c.separator (tokens.map (renderToken t.1 t.2.1 t.2.2))) ++ c.suffixStr) := by
  refine ⟨fun text => rfl, ?_, ?_⟩
  · intro hcp s hs
    rw [generate, if_pos hcp] at h
    obtain ⟨hv, hl⟩ := runCustom_ok_valid strf c _ l h
    rw [hl] at hs
    obtain ⟨t, ht, rfl⟩ := List.mem_map.mp hs
    exact ⟨t, ht, rfl⟩
  · intro hcp
    rw [generate, if_neg (by simp [hcp])] at h
    cases hp : parse_format_spec c.format with
    | error e => rw [hp] at h; exact absurd h (by simp)
    | ok tokens =>
      rw [hp] at h
      dsimp only at h
      have hl := (Except.ok.inj h).symm
      refine ⟨tokens, rfl, ?_⟩
      intro s hs
      rw [hl] at hs
      obtain ⟨t, ht, rfl⟩ := List.mem_map.mp hs
      exact ⟨t, ht, rfl⟩

/-- Configuration with affixes and upper-casing for the C6 witness. -/
def c6wCfg : DateGeneratorConfig :=
  ⟨2024, 2024, "YYYYMMDD".toList, [], none, some [1], some [1],
    "x".toList, "y".toList, some "upper".toList, false⟩

/-- Concrete instantiation of `claim_C6`: the prefix `x` and suffix `y`
stay lowercase while only the rendered date portion is upper-cased. -/
theorem claim_C6_witness :
    (∀ text, caseTransform none text = text) ∧
    (truthyStr c6wCfg.custom_pattern = true →
      ∀ s ∈ ["x20240101y".toList], ∃ t ∈ iter_ymd c6wCfg,
        s = c6wCfg.prefixStr ++
          caseTransform c6wCfg.caseOpt
            (strfDefault (customPatternArg c6wCfg) t.1 t.2.1 t.2.2) ++ c6wCfg.suffixStr) ∧
    (truthyStr c6wCfg.custom_pattern = false →
      ∃ tokens, parse_format_spec c6wCfg.format = .ok tokens ∧
        ∀ s ∈ ["x20240101y".toList], ∃ t ∈ iter_ymd c6wCfg,
          s = c6wCfg.prefixStr ++
            caseTransform c6wCfg.caseOpt
              (pyJoin c6wCfg.separator (tokens.map (renderToken t.1 t.2.1 t.2.2))) ++
              c6wCfg.suffixStr) :=
  claim_C6 c6wCfg strfDefault ["x20240101y".toList] (by decide)

/-! ## Claim C9 -/

/-- The write loop of `DateGenerator.write` (`chronogen/core.py` lines
205-207, and identically `date_generator/core.py` lines 203-205): the
bytes written are the concatenation of `value + newline` over the
generated sequence. -/
def writeLoop (newline : PyStr) : List PyStr → PyStr
  | [] => []
  | v :: rest => v ++ newline ++ writeLoop newline rest

/-- Model of `DateGenerator.write` (`chronogen/core.py` lines 200-208):
the file content produced for a configuration (path handling and directory
creation are I/O collaborators outside the model). -/
def write_content (strf : Strftime) (c : DateGeneratorConfig) (newline : PyStr) :
    Except PyErr PyStr :=
  match generate strf c with
  | .error e => .error e
  | .ok l => .ok (writeLoop newline l)

theorem writeLoop_eq_flatten (newline : PyStr) :
    ∀ l : List PyStr, writeLoop newline l = (l.map (fun v => v ++ newline)).flatten
  | [] => rfl
  | v :: rest => by
    simp only [writeLoop, List.map_cons, List.flatten_cons,
      writeLoop_eq_flatten newline rest, List.append_assoc]

theorem writeLoop_eq_join_terminated (newline : PyStr) :
    ∀ l : List PyStr, l ≠ [] → writeLoop newline l = pyJoin newline l ++ newline
  | [], h => absurd rfl h
  | [v], _ => by simp [writeLoop, pyJoin]
  | v :: w :: rest, _ => by
    have ih := writeLoop_eq_join_terminated newline (w :: rest) (by simp)
    simp only [writeLoop] at ih ⊢
    rw [ih]
    show v ++ newline ++ (pyJoin newline (w :: rest) ++ newline) =
      pyJoin newline (v :: w :: rest) ++ newline
    simp only [pyJoin, List.append_assoc]

/-- C9: the write operation produces file content equal to the
concatenation, over the generated sequence, of each formatted date string
immediately followed by the configured line ending — every entry,
including the last, is terminated by the line ending and no other bytes
are written. -/
theorem claim_C9 (strf : Strftime) (c : DateGeneratorConfig) (newline : PyStr)
    (l : List PyStr) (h : generate strf c = .ok l) :
    write_content strf c newline = .ok ((l.map (fun v => v ++ newline)).flatten) ∧
    (l ≠ [] → writeLoop newline l = pyJoin newline l ++ newline) ∧
    writeLoop newline [] = [] := by
  refine ⟨?_, writeLoop_eq_join_terminated newline l, rfl⟩
  simp only [write_content, h, writeLoop_eq_flatten]

/-- Concrete instantiation of `claim_C9` on the two-day January 2024
configuration with CRLF line endings. -/
theorem claim_C9_witness :
    write_content strfDefault c4wCfg "\r\n".toList = .ok
      ((["2024-01-01".toList, "2024-01-02".toList].map
        (fun v => v ++ "\r\n".toList)).flatten) ∧
    (["2024-01-01".toList, "2024-01-02".toList] ≠ [] →
      writeLoop "\r\n".toList ["2024-01-01".toList, "2024-01-02".toList] =
        pyJoin "\r\n".toList ["2024-01-01".toList, "2024-01-02".toList] ++ "\r\n".toList) ∧
    writeLoop "\r\n".toList [] = [] :=
  claim_C9 strfDefault c4wCfg "\r\n".toList
    ["2024-01-01".toList, "2024-01-02".toList] (by decide)

/-! ## Claim C2 -/

/-- Whether a `PyErr` is (a subclass of) `DateGeneratorError` — the class
the spec calls `FormatError` when raised by the format compiler. -/
def isDateGeneratorError : PyErr → Bool
  | .dateGeneratorError _ => true
  | _ => false

/-- C2 (failing part): the documented invalid inputs do raise
`DateGeneratorError` (`FormatError`), but a whitespace-only input such as
`"  "` escapes every check and crashes at `text[0]` with an `IndexError`,
which is not a `DateGeneratorError` — contradicting both the claim and the
defensive empty-token check on `core.py` lines 86-87, which is unreachable
for this input. -/
theorem claim_C2 :
    parse_format_spec "  ".toList = .error .indexError ∧
    isDateGeneratorError .indexError = false ∧
    parse_format_spec "".toList =
      .error (.dateGeneratorError "format string must not be empty".toList) ∧
    parse_format_spec "QQ".toList =
      .error (.dateGeneratorError "format may only contain Y, M, and D characters".toList) ∧
    parse_format_spec "YYYYY".toList =
      .error (.dateGeneratorError "Y groups must be either 'YY' or 'YYYY'".toList) ∧
    parse_format_spec "MMM".toList =
      .error (.dateGeneratorError "M groups must be exactly 'MM'".toList) ∧
    parse_format_spec "YMDY".toList =
      .error (.dateGeneratorError "Y groups must be either 'YY' or 'YYYY'".toList) := by
  decide

/-! ## Claim C3 -/

/-- The source letter of a compiled token. -/
def letterOfToken : FieldToken → Char
  | .Y4 => 'Y'
  | .Y2 => 'Y'
  | .M => 'M'
  | .D => 'D'

/-- Collapse each maximal run of equal adjacent characters to a single
character — an independent description of "the order the runs appeared in
the input". -/
def collapseAdjacent : List Char → List Char
  | [] => []
  | [c] => [c]
  | a :: b :: rest =>
    if a = b then collapseAdjacent (b :: rest) else a :: collapseAdjacent (b :: rest)

theorem scanGroups_letters :
    ∀ (rest : List Char) (current : Char) (count : Nat),
      (scanGroups current count rest).map Prod.fst = collapseAdjacent (current :: rest)
  | [], _, _ => rfl
  | b :: rest, current, count => by
    by_cases hb : b = current
    · subst hb
      simp only [scanGroups, if_pos rfl, collapseAdjacent, if_pos rfl]
      exact scanGroups_letters rest b (count + 1)
    · simp only [scanGroups, if_neg hb, List.map_cons]
      rw [scanGroups_letters rest b 1]
      simp only [collapseAdjacent]
      rw [if_neg (show ¬ current = b from fun hh => hb hh.symm)]

theorem scanGroups_mem :
    ∀ (rest : List Char) (current : Char) (count : Nat) (g : Char × Nat),
      g ∈ scanGroups current count rest → g.1 = current ∨ g.1 ∈ rest
  | [], current, count, g, hg => by
    simp only [scanGroups, List.mem_singleton] at hg
    exact Or.inl (by rw [hg])
  | b :: rest, current, count, g, hg => by
    by_cases hb : b = current
    · subst hb
      simp only [scanGroups, if_pos rfl] at hg
      rcases scanGroups_mem rest b (count + 1) g hg with h | h
      · exact Or.inl h
      · exact Or.inr (List.mem_cons_of_mem _ h)
    · simp only [scanGroups, if_neg hb, List.mem_cons] at hg
      rcases hg with rfl | hg
      · exact Or.inl rfl
      · rcases scanGroups_mem rest b 1 g hg with h | h
        · exact Or.inr (by simp [h])
        · exact Or.inr (List.mem_cons_of_mem _ h)

theorem buildTokens_letters :
    ∀ (groups : List (Char × Nat)) (seen : List Char) (tokens : List FieldToken),
      buildTokens seen groups = .ok tokens →
      (∀ g ∈ groups, g.1 = 'Y' ∨ g.1 = 'M' ∨ g.1 = 'D') →
      tokens.map letterOfToken = groups.map Prod.fst
  | [], seen, tokens, h, _ => by
    simp only [buildTokens, Except.ok.injEq] at h
    rw [← h]
    rfl
  | (letter, len) :: groups, seen, tokens, h, hletters => by
    have hrest : ∀ g ∈ groups, g.1 = 'Y' ∨ g.1 = 'M' ∨ g.1 = 'D' :=
      fun g hg => hletters g (List.mem_cons_of_mem _ hg)
    have hl3 : letter = 'Y' ∨ letter = 'M' ∨ letter = 'D' :=
      hletters (letter, len) (List.mem_cons_self _ _)
    simp only [buildTokens] at h
    by_cases hseen : letter ∈ seen
    · rw [if_pos hseen] at h
      exact absurd h (by simp)
    · rw [if_neg hseen] at h
      rcases hl3 with hY | hM | hD
      · rw [if_pos hY] at h
        by_cases h4 : len = 4
        · rw [if_pos h4] at h
          cases hrec : buildTokens (letter :: seen) groups with
          | error e => rw [hrec] at h; dsimp only [Except.map] at h; exact absurd h (by simp)
          | ok ts =>
            rw [hrec] at h
            dsimp only [Except.map] at h
            have hts := (Except.ok.inj h).symm
            subst hts
            simp only [List.map_cons]
            rw [buildTokens_letters groups (letter :: seen) ts hrec hrest, hY]
            rfl
        · rw [if_neg h4] at h
          by_cases h2 : len = 2
          · rw [if_pos h2] at h
            cases hrec : buildTokens (letter :: seen) groups with
            | error e => rw [hrec] at h; dsimp only [Except.map] at h; exact absurd h (by simp)
            | ok ts =>
              rw [hrec] at h
              dsimp only [Except.map] at h
              have hts := (Except.ok.inj h).symm
              subst hts
              simp only [List.map_cons]
              rw [buildTokens_letters groups (letter :: seen) ts hrec hrest, hY]
              rfl
          · rw [if_neg h2] at h
            exact absurd h (by simp)
      · have hYn : ¬ letter = 'Y' := by simp [hM]
        rw [if_neg hYn, if_pos hM] at h
        by_cases h2 : len = 2
        · rw [if_pos h2] at h
          cases hrec : buildTokens (letter :: seen) groups with
          | error e => rw [hrec] at h; dsimp only [Except.map] at h; exact absurd h (by simp)
          | ok ts =>
            rw [hrec] at h
            dsimp only [Except.map] at h
            have hts := (Except.ok.inj h).symm
            subst hts
            simp only [List.map_cons]
            rw [buildTokens_letters groups (letter :: seen) ts hrec hrest, hM]
            rfl
        · rw [if_neg h2] at h
          exact absurd h (by simp)
      · have hYn : ¬ letter = 'Y' := by simp [hD]
        have hMn : ¬ letter = 'M' := by simp [hD]
        rw [if_neg hYn, if_neg hMn, if_pos hD] at h
        by_cases h2 : len = 2
        · rw [if_pos h2] at h
          cases hrec : buildTokens (letter :: seen) groups with
          | error e => rw [hrec] at h; dsimp only [Except.map] at h; exact absurd h (by simp)
          | ok ts =>
            rw [hrec] at h
            dsimp only [Except.map] at h
            have hts := (Except.ok.inj h).symm
            subst hts
            simp only [List.map_cons]
            rw [buildTokens_letters groups (letter :: seen) ts hrec hrest, hD]
            rfl
        · rw [if_neg h2] at h
          exact absurd h (by simp)

theorem parse_ok_letters (spec : PyStr) (tokens : List FieldToken)
    (h : parse_format_spec spec = .ok tokens) :
    tokens.map letterOfToken = collapseAdjacent (pyStrip (pyUpper spec)) := by
  unfold parse_format_spec at h
  split at h
  · exact absurd h (by simp)
  · dsimp only at h
    split at h
    next => exact absurd h (by simp)
    next hfilter =>
      have hfil : List.filter (fun c => decide (¬ (c = 'Y' ∨ c = 'M' ∨ c = 'D')))
          (pyStrip (pyUpper spec)) = [] := by
        by_contra hc
        exact hfilter hc
      split at h
      · exact absurd h (by simp)
      next ch rest htext =>
        cases hbt : buildTokens [] (scanGroups ch 1 rest) with
        | error e => rw [hbt] at h; exact absurd h (by simp)
        | ok ts =>
          rw [hbt] at h
          dsimp only at h
          split at h
          · exact absurd h (by simp)
          · have hts := Except.ok.inj h
            subst hts
            have hchar : ∀ x ∈ pyStrip (pyUpper spec), x = 'Y' ∨ x = 'M' ∨ x = 'D' := by
              intro x hx
              by_contra hc
              have hxf : x ∈ List.filter (fun c => decide (¬ (c = 'Y' ∨ c = 'M' ∨ c = 'D')))
                  (pyStrip (pyUpper spec)) :=
                List.mem_filter.mpr ⟨hx, by simpa using hc⟩
              rw [hfil] at hxf
              cases hxf
            have hall : ∀ g ∈ scanGroups ch 1 rest, g.1 = 'Y' ∨ g.1 = 'M' ∨ g.1 = 'D' := by
              intro g hg
              rcases scanGroups_mem rest ch 1 g hg with h1 | h1
              · exact hchar g.1 (by rw [htext, h1]; exact List.mem_cons_self _ _)
              · exact hchar g.1 (by rw [htext]; exact List.mem_cons_of_mem _ h1)
            calc ts.map letterOfToken
                = (scanGroups ch 1 rest).map Prod.fst :=
                  buildTokens_letters _ [] ts hbt hall
              _ = collapseAdjacent (ch :: rest) := scanGroups_letters rest ch 1
              _ = collapseAdjacent (pyStrip (pyUpper spec)) := by rw [htext]

/-- An affix-free, separator-free configuration used for the C3 rendering
examples. -/
def c3wCfg : DateGeneratorConfig :=
  ⟨2024, 2024, "YYYYMMDD".toList, [], none, none, none, [], [], none, false⟩

/-- C3: the compiled token sequence lists the fields in the order their
runs appear in the input (not normalized to Y-M-D order: the letters of the
tokens are exactly the run letters in input order), and rendering maps
`Y4`/`Y2`/`M`/`D` to zero-padded year, year mod 100, month and day joined
by the separator; in particular `YYYYMMDD` on 2024-12-31 with empty
separator renders `"20241231"`, `DDMMYYYY` renders `"31122024"`, and
`YYMMDD` renders `"241231"`. -/
theorem claim_C3 :
    (∀ (spec : PyStr) (tokens : List FieldToken),
      parse_format_spec spec = .ok tokens →
      tokens.map letterOfToken = collapseAdjacent (pyStrip (pyUpper spec))) ∧
    parse_format_spec "YYYYMMDD".toList = .ok [.Y4, .M, .D] ∧
    format_spec c3wCfg [.Y4, .M, .D] 2024 12 31 = "20241231".toList ∧
    parse_format_spec "DDMMYYYY".toList = .ok [.D, .M, .Y4] ∧
    format_spec c3wCfg [.D, .M, .Y4] 2024 12 31 = "31122024".toList ∧
    parse_format_spec "YYMMDD".toList = .ok [.Y2, .M, .D] ∧
    format_spec c3wCfg [.Y2, .M, .D] 2024 12 31 = "241231".toList ∧
    format_spec c3wCfg [.Y4, .M, .D] 2024 1 5 = "20240105".toList :=
  ⟨parse_ok_letters, by decide, by decide, by decide, by decide, by decide,
    by decide, by decide⟩

/-- Concrete instantiation of `claim_C3`'s universal part on `"MMDD"`. -/
theorem claim_C3_witness :
    [FieldToken.M, FieldToken.D].map letterOfToken =
      collapseAdjacent (pyStrip (pyUpper "MMDD".toList)) :=
  claim_C3.1 "MMDD".toList [FieldToken.M, FieldToken.D] (by decide)

/-! ## Claim C8 -/

theorem format_spec_st_ok (g : GenState) (y m d : Int) (s : PyStr) (g' : GenState)
    (h : format_spec_st g y m d = .ok (s, g')) :
    g'.config = g.config ∧ ∃ ts, g'.spec_tokens = some ts ∧
      s = format_spec g.config ts y m d ∧
      (∀ ts0, g.spec_tokens = some ts0 → ts0 = ts) := by
  unfold format_spec_st at h
  cases hc : g.spec_tokens with
  | some ts0 =>
    rw [hc] at h
    dsimp only at h
    obtain ⟨h1, h2⟩ := Prod.mk.inj (Except.ok.inj h)
    refine ⟨?_, ts0, ?_, ?_, ?_⟩
    · rw [← h2]
    · rw [← h2]; exact hc
    · rw [← h1]
    · intro ts1 h1'
      exact (Option.some.inj h1').symm
  | none =>
    rw [hc] at h
    cases hpar : parse_format_spec g.config.format with
    | error e => rw [hpar] at h; exact absurd h (by simp)
    | ok ts =>
      rw [hpar] at h
      dsimp only at h
      obtain ⟨h1, h2⟩ := Prod.mk.inj (Except.ok.inj h)
      refine ⟨?_, ts, ?_, ?_, ?_⟩
      · rw [← h2]
      · rw [← h2]
      · rw [← h1]
      · intro ts1 h1'
        exact absurd h1' (by simp)

theorem format_spec_st_cached (g2 : GenState) (y m d : Int) (ts : List FieldToken)
    (hts : g2.spec_tokens = some ts) :
    format_spec_st g2 y m d = .ok (format_spec g2.config ts y m d, g2) := by
  unfold format_spec_st
  rw [hts]

theorem genLoop_rerun (strf : Strftime) :
    ∀ (trips : List (Int × Int × Int)) (g : GenState) (out : List PyStr) (g1 : GenState),
      genLoop strf g trips = .ok (out, g1) →
      g1.config = g.config ∧
      (∀ ts, g.spec_tokens = some ts → g1.spec_tokens = some ts) ∧
      genLoop strf g1 trips = .ok (out, g1) := by
  intro trips
  induction trips with
  | nil =>
    intro g out g1 h
    simp only [genLoop, Except.ok.injEq, Prod.mk.injEq] at h
    obtain ⟨h1, h2⟩ := h
    subst h1
    subst h2
    exact ⟨rfl, fun ts hts => hts, rfl⟩
  | cons t rest ih =>
    intro g out g1 h
    obtain ⟨y, m, d⟩ := t
    simp only [genLoop] at h ⊢
    by_cases hcp : truthyStr g.config.custom_pattern = true
    · rw [if_pos hcp] at h
      cases hfc : format_custom strf g.config y m d with
      | error e =>
        rw [hfc] at h
        dsimp only [Except.map] at h
        exact absurd h (by simp)
      | ok s =>
        rw [hfc] at h
        dsimp only [Except.map] at h
        cases hrec : genLoop strf g rest with
        | error e => rw [hrec] at h; exact absurd h (by simp)
        | ok p =>
          obtain ⟨l, g2⟩ := p
          rw [hrec] at h
          dsimp only at h
          have hp := Except.ok.inj h
          obtain ⟨ho, hg⟩ := Prod.mk.inj hp
          subst ho
          subst hg
          obtain ⟨hcfg, hmono, hrerun⟩ := ih g l g2 hrec
          refine ⟨hcfg, hmono, ?_⟩
          rw [if_pos (show truthyStr g2.config.custom_pattern = true by rw [hcfg]; exact hcp)]
          rw [show format_custom strf g2.config y m d = format_custom strf g.config y m d
            by rw [hcfg], hfc]
          dsimp only [Except.map]
          rw [hrerun]
    · rw [if_neg hcp] at h
      cases hst : format_spec_st g y m d with
      | error e => rw [hst] at h; exact absurd h (by simp)
      | ok p =>
        obtain ⟨s, g'⟩ := p
        rw [hst] at h
        dsimp only at h
        cases hrec : genLoop strf g' rest with
        | error e => rw [hrec] at h; exact absurd h (by simp)
        | ok q =>
          obtain ⟨l, g2⟩ := q
          rw [hrec] at h
          dsimp only at h
          have hp := Except.ok.inj h
          obtain ⟨ho, hg⟩ := Prod.mk.inj hp
          subst ho
          subst hg
          obtain ⟨hcfg', ts, htok', hsval, hmono0⟩ := format_spec_st_ok g y m d s g' hst
          obtain ⟨hcfg2, hmono2, hrerun⟩ := ih g' l g2 hrec
          have hcfg1 : g2.config = g.config := hcfg2.trans hcfg'
          have htok1 : g2.spec_tokens = some ts := hmono2 ts htok'
          refine ⟨hcfg1, ?_, ?_⟩
          · intro ts0 h0
            have he := hmono0 ts0 h0
            subst he
            exact htok1
          · rw [if_neg (show ¬ truthyStr g2.config.custom_pattern = true by
              rw [hcfg1]; exact hcp)]
            rw [format_spec_st_cached g2 y m d ts htok1]
            dsimp only
            rw [hrerun]
            dsimp only
            rw [show format_spec g2.config ts y m d = s by rw [hcfg1, ← hsval]]

/-- C8: the sequence produced depends only on the values supplied at
construction: a second `generate` call on the same generator object yields
the identical sequence (the `_spec_tokens` cache is transparent), the
configuration component of the generator state is never mutated, and the
stored `months`/`days` are fresh tuples computed from the values of the
caller's lists at construction time (so later mutation of those list
objects cannot affect subsequent sequences). -/
theorem claim_C8 (cfg : DateGeneratorConfig) (g : GenState)
    (hmk : mkGenerator cfg = .ok g) (strf : Strftime)
    (out : List PyStr) (g1 : GenState)
    (hrun : generate_st strf g = .ok (out, g1)) :
    g1.config = g.config ∧
    generate_st strf g1 = .ok (out, g1) ∧
    (∀ ms, cfg.months = some ms →
      ∃ r, normalizeIntLoop 1 12 "months".toList [] ms = .ok r ∧
        g.config.months = some (sortAsc r)) ∧
    (∀ ds, cfg.days = some ds →
      ∃ r, normalizeIntLoop 1 31 "days".toList [] ds = .ok r ∧
        g.config.days = some (sortAsc r)) := by
  obtain ⟨hcfg, hmono, hrerun⟩ := genLoop_rerun strf (iter_ymd g.config) g out g1 hrun
  have hne : cfg.normalized = .ok g.config := by
    unfold mkGenerator at hmk
    cases hn : cfg.normalized with
    | error e => rw [hn] at hmk; exact absurd hmk (by simp)
    | ok n =>
      rw [hn] at hmk
      dsimp only at hmk
      rw [← Except.ok.inj hmk]
  obtain ⟨-, caseN, months, days, -, hms, hds, hcstruct⟩ :=
    normalized_ok_elim cfg g.config hne
  have hcm : g.config.months = months := by rw [hcstruct]
  have hcd : g.config.days = days := by rw [hcstruct]
  refine ⟨hcfg, ?_, ?_, ?_⟩
  · unfold generate_st
    rw [hcfg]
    exact hrerun
  · intro ms hmsSome
    rw [hmsSome] at hms
    unfold normalize_int_sequence at hms
    dsimp only at hms
    cases hloop : normalizeIntLoop 1 12 "months".toList [] ms with
    | error e => rw [hloop] at hms; exact absurd hms (by simp)
    | ok r =>
      rw [hloop] at hms
      dsimp only at hms
      exact ⟨r, rfl, by rw [hcm, ← Except.ok.inj hms]⟩
  · intro ds hdsSome
    rw [hdsSome] at hds
    unfold normalize_int_sequence at hds
    dsimp only at hds
    cases hloop : normalizeIntLoop 1 31 "days".toList [] ds with
    | error e => rw [hloop] at hds; exact absurd hds (by simp)
    | ok r =>
      rw [hloop] at hds
      dsimp only at hds
      exact ⟨r, rfl, by rw [hcd, ← Except.ok.inj hds]⟩

/-- Raw and normalized forms of the configuration used by the C8 witness
(months supplied out of order to exercise the copy/sort). -/
def c8wRaw : DateGeneratorConfig :=
  ⟨2024, 2024, "YYYYMMDD".toList, [], none, some [2, 1], some [1], [], [], none, false⟩

def c8wNorm : DateGeneratorConfig :=
  ⟨2024, 2024, "YYYYMMDD".toList, [], none, some [1, 2], some [1], [], [], none, false⟩

/-- Concrete instantiation of `claim_C8`: the second run of the generator
reproduces `["20240101", "20240201"]` from the cached state. -/
theorem claim_C8_witness :
    (GenState.mk c8wNorm (some [FieldToken.Y4, FieldToken.M, FieldToken.D])).config =
      (GenState.mk c8wNorm none).config ∧
    generate_st strfDefault (GenState.mk c8wNorm (some [FieldToken.Y4, FieldToken.M, FieldToken.D])) =
      .ok (["20240101".toList, "20240201".toList],
        GenState.mk c8wNorm (some [FieldToken.Y4, FieldToken.M, FieldToken.D])) ∧
    (∀ ms, c8wRaw.months = some ms →
      ∃ r, normalizeIntLoop 1 12 "months".toList [] ms = .ok r ∧
        (GenState.mk c8wNorm none).config.months = some (sortAsc r)) ∧
    (∀ ds, c8wRaw.days = some ds →
      ∃ r, normalizeIntLoop 1 31 "days".toList [] ds = .ok r ∧
        (GenState.mk c8wNorm none).config.days = some (sortAsc r)) :=
  claim_C8 c8wRaw (GenState.mk c8wNorm none) (by decide) strfDefault
    ["20240101".toList, "20240201".toList]
    (GenState.mk c8wNorm (some [FieldToken.Y4, FieldToken.M, FieldToken.D])) (by decide)

/-! ## Claim C10 -/

/-- The same configuration with the symbolic `format` replaced. -/
def withFormat (c : DateGeneratorConfig) (fmt : PyStr) : DateGeneratorConfig :=
  ⟨c.start_year, c.end_year, fmt, c.separator, c.custom_pattern,
    c.months, c.days, c.prefixStr, c.suffixStr, c.caseOpt, c.reverse⟩

/-- The `date_generator` configuration sharing every field with a
`chronogen` configuration, with the given preset key. -/
def toDGConfig (c : DateGeneratorConfig) (preset : PyStr) : DGConfig :=
  ⟨c.start_year, c.end_year, preset, c.separator, c.custom_pattern,
    c.months, c.days, c.prefixStr, c.suffixStr, c.caseOpt, c.reverse⟩

theorem join3 (sep a b c : PyStr) :
    pyJoin sep [a, b, c] = a ++ sep ++ b ++ sep ++ c := by
  simp [pyJoin, List.append_assoc]

theorem dgCheckDates_ok :
    ∀ l : List (Int × Int × Int),
      (∀ t ∈ l, dateValid t.1 t.2.1 t.2.2 = true) → dgCheckDates l = .ok l
  | [], _ => rfl
  | (y, m, d) :: rest, h => by
    have hv : dateValid y m d = true := h (y, m, d) (List.mem_cons_self _ _)
    simp only [dgCheckDates]
    rw [if_pos hv, dgCheckDates_ok rest (fun t ht => h t (List.mem_cons_of_mem _ ht))]

theorem dgRun_ok_map (strf : Strftime) (c : DGConfig) (f : Int → Int → Int → PyStr)
    (hf : ∀ y m d, dg_format strf c y m d = .ok (f y m d)) :
    ∀ l : List (Int × Int × Int),
      dgRun strf c l = .ok (l.map (fun t => f t.1 t.2.1 t.2.2))
  | [] => rfl
  | (y, m, d) :: rest => by
    simp only [dgRun]
    rw [hf y m d]
    dsimp only
    rw [dgRun_ok_map strf c f hf rest]
    rfl

/-- One format/preset correspondence, generic in the pair: if the preset's
rendering always equals the compiled-token rendering, the two packages
generate the same sequence. -/
theorem c10_case (c : DateGeneratorConfig) (hv : ValidFields c)
    (hy1 : 1 ≤ c.start_year) (hy2 : c.end_year ≤ 9999)
    (hnc : truthyStr c.custom_pattern = false) (strf : Strftime)
    (F preset : PyStr) (tokens : List FieldToken)
    (hparse : parse_format_spec F = .ok tokens)
    (hbody : ∀ y m d : Int, dgPresetFormat preset c.separator y m d =
      some (pyJoin c.separator (tokens.map (renderToken y m d)))) :
    dg_generate strf (toDGConfig c preset) = generate strf (withFormat c F) := by
  have hf : ∀ y m d : Int, dg_format strf (toDGConfig c preset) y m d =
      .ok (format_spec (withFormat c F) tokens y m d) := by
    intro y m d
    unfold dg_format
    rw [if_neg (show ¬ truthyStr (toDGConfig c preset).custom_pattern = true by
      simp [show truthyStr (toDGConfig c preset).custom_pattern = truthyStr c.custom_pattern
        from rfl, hnc])]
    rw [show (toDGConfig c preset).preset = preset from rfl,
      show (toDGConfig c preset).separator = c.separator from rfl, hbody y m d]
    rfl
  have hvalid : ∀ t ∈ dg_iter_raw (toDGConfig c preset), dateValid t.1 t.2.1 t.2.2 = true := by
    rw [show dg_iter_raw (toDGConfig c preset) = iter_ymd c from rfl]
    intro t ht
    obtain ⟨h1, h2, h3, h4⟩ := iter_ymd_valid c hv t ht
    obtain ⟨h5, h6⟩ := iter_ymd_year_bounds c t ht
    simp only [dateValid, Bool.and_eq_true, decide_eq_true_eq]
    refine ⟨⟨⟨⟨⟨?_, ?_⟩, h1⟩, h2⟩, h3⟩, h4⟩
    · omega
    · omega
  unfold generate
  rw [if_neg (show ¬ truthyStr (withFormat c F).custom_pattern = true by
    simp [show truthyStr (withFormat c F).custom_pattern = truthyStr c.custom_pattern
      from rfl, hnc])]
  rw [show (withFormat c F).format = F from rfl, hparse]
  dsimp only
  unfold dg_generate
  rw [dgCheckDates_ok _ hvalid]
  dsimp only
  rw [dgRun_ok_map strf (toDGConfig c preset)
    (fun y m d => format_spec (withFormat c F) tokens y m d) hf
    (dg_iter_raw (toDGConfig c preset))]
  rfl

/-- C10 (amended): for every shared configuration (same years, separator, filters,
affixes, case and direction, no custom pattern, bounds-valid filters), the
`chronogen` generator with each symbolic format produces exactly the same
sequence as the `date_generator` generator with the corresponding preset:
`YYYYMMDD`/`ymd`, `DDMMYYYY`/`dmy`, `MMDDYYYY`/`mdy`, `DDMMYY`/`dmys`,
`YYMMDD`/`ymds`, `MMDDYY`/`mdys`. The year-range hypothesis `1 ≤
start_year`, `end_year ≤ 9999` is required: outside `datetime`'s supported
years `date_generator` raises `ValueError` from its per-triple `date()`
construction while `chronogen`'s symbolic path still yields strings (see
the counterexample at year 0). -/
theorem claim_C10 (c : DateGeneratorConfig) (hv : ValidFields c)
    (hy1 : 1 ≤ c.start_year) (hy2 : c.end_year ≤ 9999)
    (hnc : truthyStr c.custom_pattern = false) (strf : Strftime) :
    dg_generate strf (toDGConfig c "ymd".toList) =
      generate strf (withFormat c "YYYYMMDD".toList) ∧
    dg_generate strf (toDGConfig c "dmy".toList) =
      generate strf (withFormat c "DDMMYYYY".toList) ∧
    dg_generate strf (toDGConfig c "mdy".toList) =
      generate strf (withFormat c "MMDDYYYY".toList) ∧
    dg_generate strf (toDGConfig c "dmys".toList) =
      generate strf (withFormat c "DDMMYY".toList) ∧
    dg_generate strf (toDGConfig c "ymds".toList) =
      generate strf (withFormat c "YYMMDD".toList) ∧
    dg_generate strf (toDGConfig c "mdys".toList) =
      generate strf (withFormat c "MMDDYY".toList) := by
  refine ⟨?_, ?_, ?_, ?_, ?_, ?_⟩
  · exact c10_case c hv hy1 hy2 hnc strf _ _ [.Y4, .M, .D] (by decide)
      (fun y m d => by simp [dgPresetFormat, renderToken, join3])
  · exact c10_case c hv hy1 hy2 hnc strf _ _ [.D, .M, .Y4] (by decide)
      (fun y m d => by simp [dgPresetFormat, renderToken, join3])
  · exact c10_case c hv hy1 hy2 hnc strf _ _ [.M, .D, .Y4] (by decide)
      (fun y m d => by simp [dgPresetFormat, renderToken, join3])
  · exact c10_case c hv hy1 hy2 hnc strf _ _ [.D, .M, .Y2] (by decide)
      (fun y m d => by simp [dgPresetFormat, renderToken, join3])
  · exact c10_case c hv hy1 hy2 hnc strf _ _ [.Y2, .M, .D] (by decide)
      (fun y m d => by simp [dgPresetFormat, renderToken, join3])
  · exact c10_case c hv hy1 hy2 hnc strf _ _ [.M, .D, .Y2] (by decide)
      (fun y m d => by simp [dgPresetFormat, renderToken, join3])

/-- A shared concrete configuration for the C10 witness. -/
def c10wCfg : DateGeneratorConfig :=
  ⟨2024, 2024, "YYYYMMDD".toList, "-".toList, none, some [1], some [1], [], [], none, false⟩

/-- Concrete instantiation of `claim_C10` on a one-day configuration. -/
theorem claim_C10_witness :
    dg_generate strfDefault (toDGConfig c10wCfg "ymd".toList) =
      generate strfDefault (withFormat c10wCfg "YYYYMMDD".toList) ∧
    dg_generate strfDefault (toDGConfig c10wCfg "dmy".toList) =
      generate strfDefault (withFormat c10wCfg "DDMMYYYY".toList) ∧
    dg_generate strfDefault (toDGConfig c10wCfg "mdy".toList) =
      generate strfDefault (withFormat c10wCfg "MMDDYYYY".toList) ∧
    dg_generate strfDefault (toDGConfig c10wCfg "dmys".toList) =
      generate strfDefault (withFormat c10wCfg "DDMMYY".toList) ∧
    dg_generate strfDefault (toDGConfig c10wCfg "ymds".toList) =
      generate strfDefault (withFormat c10wCfg "YYMMDD".toList) ∧
    dg_generate strfDefault (toDGConfig c10wCfg "mdys".toList) =
      generate strfDefault (withFormat c10wCfg "MMDDYY".toList) :=
  claim_C10 c10wCfg
    ⟨by
      intro ms hms
      cases Option.some.inj hms
      decide,
     by
      intro ds hds
      cases Option.some.inj hds
      decide⟩
    (by decide) (by decide) (by decide) strfDefault

/-- A shared year-0 configuration with no custom pattern. -/
def c10xCfg : DateGeneratorConfig :=
  ⟨0, 0, "YYYYMMDD".toList, [], none, some [1], some [1], [], [], none, false⟩

/-- Counterexample to C10 as stated: at year 0 the `chronogen` generator
with format `YYYYMMDD` yields `"00000101"`, while the `date_generator`
generator with preset `ymd` fails with the `ValueError` of its per-triple
`date()` construction — the sequences are not the same. -/
theorem claim_C10_counterexample :
    generate strfDefault (withFormat c10xCfg "YYYYMMDD".toList) =
      .ok ["00000101".toList] ∧
    dg_generate strfDefault (toDGConfig c10xCfg "ymd".toList) =
      .error (.valueError "year is out of range".toList) := by
  decide
